import Mathlib

/-!
Shallow embedding of the dopamint-indexer-insight filtering/discovery core
(`src/filters/contract_filter.go`, `src/filters/event_listener.go`, and the
RPC adapter excerpted in `QUICK_REFERENCE.md`), together with theorems about
the behaviour of those functions.

Modelling conventions:
* A `common.Address` (20 bytes) is a `Nat` below `2^160`; a `common.Hash`
  (32 bytes, used for log topics) is a `Nat` below `2^256`.  Truncating a
  32-byte word to an address (`common.BytesToAddress(hash.Bytes())`, which
  keeps the last 20 bytes) is reduction modulo `2^160`.
* Go strings are `List Char`.
* The Go map `map[common.Address]bool` is modelled by its key list in
  insertion order; setting a key is `insertKey` (a no-op when the key is
  present).  Go map iteration order is unspecified; the properties proved
  below about iterations over the map are order-independent.
* Fallible IO (reading the config file, JSON unmarshalling, the outbound
  `FilterLogs` network call) is passed in as data: the read/parse outcome is
  an `Option (Option ContractConfig)` argument, and the RPC client is a
  function argument from the issued query to its result.
* Functions whose only Go-observable effect is a print and/or a state
  update return the updated state together with an outcome tag; the tag
  constructors correspond one-to-one to the `return` points of the Go code.
-/

namespace DopamintIndexer

/-- Truncation of a 32-byte topic word to a 20-byte address, as performed by
`common.BytesToAddress(log.Topics[i].Bytes())`: the last 20 bytes of the
32-byte value are kept, i.e. the value is reduced modulo `2^160`. -/
def bytesToAddressWord (w : Nat) : Nat := w % 2 ^ 160

/-- Value of a single hexadecimal digit character, `none` when the character
is not a hex digit (mirrors the per-character behaviour of Go
`encoding/hex`). -/
def hexDigitVal (c : Char) : Option Nat :=
  if '0' ≤ c ∧ c ≤ '9' then some (c.toNat - '0'.toNat)
  else if 'a' ≤ c ∧ c ≤ 'f' then some (c.toNat - 'a'.toNat + 10)
  else if 'A' ≤ c ∧ c ≤ 'F' then some (c.toNat - 'A'.toNat + 10)
  else none

/-- Decoding of hex-digit pairs into bytes.  Go's `common.Hex2Bytes` calls
`hex.DecodeString` and discards the error, keeping the bytes decoded before
the first invalid character; that error-swallowing is mirrored here by
returning the prefix decoded so far. -/
def decodeHexPairs : List Char → List Nat
  | c1 :: c2 :: rest =>
    match hexDigitVal c1, hexDigitVal c2 with
    | some h, some l => (16 * h + l) :: decodeHexPairs rest
    | _, _ => []
  | _ => []

/-- Go `has0xPrefix`: the string starts with `0x` or `0X`. -/
def startsWith0x : List Char → Bool
  | c0 :: c1 :: _ => c0 == '0' && (c1 == 'x' || c1 == 'X')
  | _ => false

/-- Go `common.FromHex`: strip an optional `0x`/`0X`, left-pad odd-length
input with `0`, then decode hex pairs (errors discarded). -/
def fromHex (s : List Char) : List Nat :=
  let s1 := if startsWith0x s then s.drop 2 else s
  let s2 := if s1.length % 2 = 1 then '0' :: s1 else s1
  decodeHexPairs s2

/-- Go `common.BytesToAddress`: keep the last 20 bytes (big-endian),
left-padding with zero bytes when fewer than 20 are supplied. -/
def bytesToAddress (bs : List Nat) : Nat :=
  (bs.drop (bs.length - 20)).foldl (fun acc b => acc * 256 + b) 0

/-- Go `common.HexToAddress`: `BytesToAddress(FromHex(s))`.  Note that no
error is ever reported: an empty or malformed string silently yields the
zero address (or the address of whatever prefix decoded). -/
def hexToAddress (s : List Char) : Nat := bytesToAddress (fromHex s)

/-- ASCII lower-casing of a character, the restriction of Go
`strings.ToLower` to ASCII (sufficient for hexadecimal address strings). -/
def asciiLower (c : Char) : Char :=
  match c with
  | 'A' => 'a' | 'B' => 'b' | 'C' => 'c' | 'D' => 'd' | 'E' => 'e' | 'F' => 'f'
  | 'G' => 'g' | 'H' => 'h' | 'I' => 'i' | 'J' => 'j' | 'K' => 'k' | 'L' => 'l'
  | 'M' => 'm' | 'N' => 'n' | 'O' => 'o' | 'P' => 'p' | 'Q' => 'q' | 'R' => 'r'
  | 'S' => 's' | 'T' => 't' | 'U' => 'u' | 'V' => 'v' | 'W' => 'w' | 'X' => 'x'
  | 'Y' => 'y' | 'Z' => 'z'
  | other => other

/-- Lowercase hexadecimal digit characters, used to render addresses. -/
def lowerHexDigit (n : Nat) : Char :=
  ("0123456789abcdef".toList).getD n '0'

/-- Big-endian fixed-width lowercase hexadecimal rendering of a natural
number (second argument: number of digits, leading zeros kept). -/
def natToHexDigits : Nat → Nat → List Char
  | _, 0 => []
  | n, len + 1 => natToHexDigits (n / 16) len ++ [lowerHexDigit (n % 16)]

/-- Rendering of `strings.ToLower(addr.Hex())`: `addr.Hex()` is `0x`
followed by 40 hex digits whose letter case carries the EIP-55 checksum;
lower-casing it yields the plain lowercase hexadecimal form modelled here. -/
def toLowerHexAddr (a : Nat) : List Char :=
  '0' :: 'x' :: natToHexDigits a 40

/-- `ContractFilter` (contract_filter.go): the watched-address registry.
The `sync.RWMutex` is not modelled; operations are functions on this state.
`nftContracts` is the key list of the Go `map[common.Address]bool`. -/
structure ContractFilter where
  factoryAddress : Nat
  paymentAddress : Nat
  nftContracts : List Nat
  enabled : Bool
  autoDiscovery : Bool
  mongodbSyncEnabled : Bool
  mongodbSyncIntervalSeconds : Nat
deriving DecidableEq

/-- Setting a key in a `map[common.Address]bool`: a no-op on the key set
when the key is already present, otherwise the key is added. -/
def insertKey (l : List Nat) (a : Nat) : List Nat :=
  if a ∈ l then l else l ++ [a]

/-- Fields of `ContractConfig` that `NewContractFilter` reads (the JSON
field paths `contracts.factory.address`, `contracts.payment.address`,
`contracts.nftContracts`, `eventFilters.enabled`,
`syncSettings.autoDiscovery.enabled`, `syncSettings.mongodbSync.enabled`,
`syncSettings.mongodbSync.intervalSeconds`).  A field absent from the JSON
document is its Go zero value (empty string, empty list, `false`, `0`). -/
structure ContractConfig where
  factoryAddress : List Char
  paymentAddress : List Char
  nftContracts : List (List Char)
  eventFiltersEnabled : Bool
  autoDiscoveryEnabled : Bool
  mongodbSyncEnabled : Bool
  mongodbSyncIntervalSeconds : Nat
deriving DecidableEq

/-- `NewContractFilter` (contract_filter.go).  The configuration source is
passed as data: `none` models an unreadable file (`os.ReadFile` error),
`some none` a JSON document that fails to unmarshal, `some (some config)` a
successfully parsed configuration.  As in the Go code, the factory and
payment address strings are converted with `common.HexToAddress` without
any validation, and the initial NFT-contract list is loaded skipping only
empty strings. -/
def NewContractFilter (configSource : Option (Option ContractConfig)) :
    Except (List Char) ContractFilter :=
  match configSource with
  | none => .error ("failed to read config file".toList)
  | some none => .error ("failed to parse config".toList)
  | some (some config) =>
    .ok { factoryAddress := hexToAddress config.factoryAddress
          paymentAddress := hexToAddress config.paymentAddress
          nftContracts := config.nftContracts.foldl
            (fun m addr => if addr ≠ [] then insertKey m (hexToAddress addr) else m) []
          enabled := config.eventFiltersEnabled
          autoDiscovery := config.autoDiscoveryEnabled
          mongodbSyncEnabled := config.mongodbSyncEnabled
          mongodbSyncIntervalSeconds := config.mongodbSyncIntervalSeconds }

/-- `IsEnabled` (contract_filter.go). -/
def IsEnabled (cf : ContractFilter) : Bool := cf.enabled

/-- `ShouldIndexLog` (contract_filter.go): membership test of the registry. -/
def ShouldIndexLog (cf : ContractFilter) (address : Nat) : Bool :=
  if !cf.enabled then true
  else if address == cf.factoryAddress then true
  else if address == cf.paymentAddress then true
  else if cf.nftContracts.contains address then true
  else false

/-- `AddNFTContract` (contract_filter.go): insert one dynamic member
(no-op when already present). -/
def AddNFTContract (cf : ContractFilter) (address : Nat) : ContractFilter :=
  if address ∈ cf.nftContracts then cf
  else { cf with nftContracts := cf.nftContracts ++ [address] }

/-- `AddNFTContracts` (contract_filter.go): insert a batch of dynamic
members, returning the updated registry together with `newCount`, the
number of members that were not already present (the Go function logs this
count). -/
def AddNFTContracts (cf : ContractFilter) (addresses : List Nat) :
    ContractFilter × Nat :=
  addresses.foldl
    (fun acc addr =>
      if addr ∈ acc.1.nftContracts then acc
      else ({ acc.1 with nftContracts := acc.1.nftContracts ++ [addr] }, acc.2 + 1))
    (cf, 0)

/-- `GetWatchedAddresses` (contract_filter.go): the factory address, the
payment address, then every dynamic member. -/
def GetWatchedAddresses (cf : ContractFilter) : List Nat :=
  cf.factoryAddress :: cf.paymentAddress :: cf.nftContracts

/-- `GetAddressFilter` (contract_filter.go): the watched addresses rendered
as `strings.ToLower(addr.Hex())`. -/
def GetAddressFilter (cf : ContractFilter) : List (List Char) :=
  (GetWatchedAddresses cf).map toLowerHexAddr

/-- Keccak-256 hash of
`NFTContractCreated(uint256,address,address,string,string,string)`
(event_listener.go computes it with `crypto.Keccak256Hash` at start-up). -/
def NFTContractCreatedSignature : Nat :=
  0x67d1cd8e714f3ce1835cc3191f9ea9595c4642e2137a7f18e604a6b82d59ad41

/-- A `types.Log` record, with the fields the filtering core reads. -/
structure Log where
  address : Nat
  topics : List Nat
  data : List Nat
  blockNumber : Nat
  txHash : Nat
  index : Nat
deriving DecidableEq

/-- `EventListener` (event_listener.go). -/
structure EventListener where
  contractFilter : ContractFilter
  factoryAddress : Nat
deriving DecidableEq

/-- Outcome tag for `ProcessLog`, one constructor per `return` point of the
Go function: ignored because the emitter is not the factory (first check,
silent), ignored because the first topic is missing or is not the discovery
signature (second check, silent), rejected with the printed error
`Invalid NFTContractCreated event: not enough topics` (third check), or
discovered (the extracted address is inserted and a discovery line is
printed). -/
inductive ProcessOutcome where
  | skippedNonFactory
  | skippedNotCreatedEvent
  | invalidNotEnoughTopics
  | discovered (contractAddress : Nat)
deriving DecidableEq

/-- `ProcessLog` (event_listener.go): the per-log discovery pipeline.
The checks appear in the order of the Go code: emitter first, then
signature, then topic count; extraction reads the second topic slot. -/
def ProcessLog (el : EventListener) (log : Log) :
    EventListener × ProcessOutcome :=
  if log.address ≠ el.factoryAddress then
    (el, .skippedNonFactory)
  else if log.topics.length = 0 ∨ log.topics.getD 0 0 ≠ NFTContractCreatedSignature then
    (el, .skippedNotCreatedEvent)
  else if log.topics.length < 3 then
    (el, .invalidNotEnoughTopics)
  else
    let contractAddress := bytesToAddressWord (log.topics.getD 1 0)
    ({ el with contractFilter := AddNFTContract el.contractFilter contractAddress },
      .discovered contractAddress)

/-- Loop body of `ProcessLogs` (event_listener.go): run `ProcessLog` on the
current state, then increment `discoveredCount` exactly when the log's
topic list is non-empty and its first topic equals
`NFTContractCreatedSignature` (the Go counting condition, applied to every
log independently of what `ProcessLog` did with it). -/
def processLogsStep (acc : EventListener × Nat) (log : Log) :
    EventListener × Nat :=
  let st := (ProcessLog acc.1 log).1
  if 0 < log.topics.length ∧ log.topics.getD 0 0 = NFTContractCreatedSignature then
    (st, acc.2 + 1)
  else (st, acc.2)

/-- `ProcessLogs` (event_listener.go): process every log with `ProcessLog`
and return the final state together with `discoveredCount`. -/
def ProcessLogs (el : EventListener) (logs : List Log) :
    EventListener × Nat :=
  logs.foldl processLogsStep (el, 0)

/-- `BackfillNFTContracts` (event_listener.go): runs `ProcessLogs` over the
historical batch (logging the count) and returns `nil` — the count itself
is not returned to the caller. -/
def BackfillNFTContracts (el : EventListener) (logs : List Log) :
    EventListener × Option (List Char) :=
  ((ProcessLogs el logs).1, none)

/-- `NFTContractCreatedEvent` (event_listener.go).  `collectionID` is a
`*big.Int` left `nil` by the parser (`none` here); the string fields are
left at their zero values because the data payload is not ABI-decoded. -/
structure NFTContractCreatedEvent where
  collectionID : Option Int
  contractAddress : Nat
  creator : Nat
  name : List Char
  symbol : List Char
  baseURI : List Char
  blockNumber : Nat
  txHash : Nat
  logIndex : Nat
deriving DecidableEq

/-- `ParseNFTContractCreatedEvent` (event_listener.go): the standalone
parser.  It checks the topic count, then the signature — it never reads the
log's emitting address. -/
def ParseNFTContractCreatedEvent (log : Log) :
    Except (List Char) NFTContractCreatedEvent :=
  if log.topics.length < 3 then
    .error ("invalid NFTContractCreated event: not enough topics".toList)
  else if log.topics.getD 0 0 ≠ NFTContractCreatedSignature then
    .error ("not an NFTContractCreated event".toList)
  else
    .ok { collectionID := none
          contractAddress := bytesToAddressWord (log.topics.getD 1 0)
          creator := bytesToAddressWord (log.topics.getD 2 0)
          name := []
          symbol := []
          baseURI := []
          blockNumber := log.blockNumber
          txHash := log.txHash
          logIndex := log.index }

/-- `GetEventSignatures` (event_listener.go). -/
def GetEventSignatures : List Nat := [NFTContractCreatedSignature]

/-- An `ethereum.FilterQuery` as built by `GetFilteredLogs`: block range
plus an optional address allow-list (`none` models the `Addresses` field
left unset, i.e. an unconstrained retrieval). -/
structure FilterQuery where
  fromBlock : Int
  toBlock : Int
  addresses : Option (List Nat)
deriving DecidableEq

/-- `DopamintRPCClient` (QUICK_REFERENCE.md): cached allow-list and the
filtering flag.  The underlying `ethclient.Client` is passed to
`GetFilteredLogs` as a function argument. -/
structure DopamintRPCClient where
  addressFilter : List Nat
  filterEnabled : Bool
deriving DecidableEq

/-- `GetFilteredLogs` (QUICK_REFERENCE.md): when filtering is disabled or
the allow-list is empty, issue an unconstrained query over the block range
and return the client's answer unchanged; otherwise issue the query with
the allow-list attached, wrapping a client error with context.  The issued
query is returned alongside the result so that theorems can speak about
which retrieval was performed. -/
def GetFilteredLogs (d : DopamintRPCClient) (fromBlock toBlock : Int)
    (filterLogs : FilterQuery → Except (List Char) (List Log)) :
    FilterQuery × Except (List Char) (List Log) :=
  if !d.filterEnabled || d.addressFilter.length == 0 then
    let query : FilterQuery := { fromBlock := fromBlock, toBlock := toBlock, addresses := none }
    (query, filterLogs query)
  else
    let query : FilterQuery :=
      { fromBlock := fromBlock, toBlock := toBlock, addresses := some d.addressFilter }
    match filterLogs query with
    | .error e => (query, .error (("failed to fetch filtered logs: ".toList) ++ e))
    | .ok logs => (query, .ok logs)

/-- `LogFilterStats` (QUICK_REFERENCE.md). -/
structure LogFilterStats where
  totalLogsReceived : Int
  logsAfterFilter : Int
  blocksProcessed : Int
  contractsWatched : Int
  filterEnabled : Bool
deriving DecidableEq

/-- `CalculateFilterEfficiency` (QUICK_REFERENCE.md).  The Go function
computes over `float64`; it is modelled over `ℚ` (at the integer counter
values of interest in the specification the `float64` computation is
exact). -/
def CalculateFilterEfficiency (stats : LogFilterStats) : ℚ :=
  if stats.totalLogsReceived = 0 then 0
  else (1 - (stats.logsAfterFilter : ℚ) / (stats.totalLogsReceived : ℚ)) * 100

/-! Concrete states used by witnesses and counterexamples. -/

/-- A registry with factory address `5`, payment address `6`, no dynamic
members, filtering enabled. -/
def sampleFilter : ContractFilter :=
  { factoryAddress := 5
    paymentAddress := 6
    nftContracts := []
    enabled := true
    autoDiscovery := true
    mongodbSyncEnabled := false
    mongodbSyncIntervalSeconds := 0 }

/-- An event listener over `sampleFilter` whose factory address is `5`. -/
def sampleListener : EventListener :=
  { contractFilter := sampleFilter, factoryAddress := 5 }

/-- A log emitted by address `7` (not the factory) whose first topic is the
discovery signature and which carries three topics. -/
def nonFactoryCreatedLog : Log :=
  { address := 7
    topics := [NFTContractCreatedSignature, 11, 12]
    data := []
    blockNumber := 0
    txHash := 0
    index := 0 }

/-- A log emitted by the factory (`5`) whose first topic is the discovery
signature but which carries only that one topic. -/
def malformedCreatedLog : Log :=
  { address := 5
    topics := [NFTContractCreatedSignature]
    data := []
    blockNumber := 0
    txHash := 0
    index := 0 }

/-! ## Theorems -/

/-- C4: for every registry state and address, `ShouldIndexLog` returns
`true` unconditionally when filtering is disabled (even for addresses never
inserted), and when filtering is enabled it returns `true` exactly for the
factory address, the payment address, and the dynamic members. -/
theorem shouldIndexLog_spec (cf : ContractFilter) (a : Nat) :
    (cf.enabled = false → ShouldIndexLog cf a = true) ∧
    (cf.enabled = true →
      (ShouldIndexLog cf a = true ↔
        a = cf.factoryAddress ∨ a = cf.paymentAddress ∨ a ∈ cf.nftContracts)) := by
  constructor
  · intro h
    simp [ShouldIndexLog, h]
  · intro h
    simp only [ShouldIndexLog, h, Bool.not_true]
    by_cases h1 : a = cf.factoryAddress <;>
      by_cases h2 : a = cf.paymentAddress <;>
        by_cases h3 : a ∈ cf.nftContracts <;>
          simp [h1, h2, h3]

/-- Witness for C4: with filtering disabled, the never-inserted address
`999` passes the membership test. -/
theorem shouldIndexLog_spec_witness :
    ShouldIndexLog { sampleFilter with enabled := false } 999 = true :=
  (shouldIndexLog_spec { sampleFilter with enabled := false } 999).1 rfl

/-- C7: a log whose emitting address differs from the configured factory
address is a no-op on the registry and takes the non-factory exit of
`ProcessLog` — the first check of the function, performed before the
signature is even inspected, so the topic content (including an exact
discovery signature) is irrelevant. -/
theorem processLog_nonfactory_spec (el : EventListener) (log : Log)
    (h : log.address ≠ el.factoryAddress) :
    ProcessLog el log = (el, ProcessOutcome.skippedNonFactory) := by
  simp [ProcessLog, h]

/-- Witness for C7: a log carrying the exact discovery signature but
emitted by `7` rather than the factory `5` is ignored outright. -/
theorem processLog_nonfactory_spec_witness :
    ProcessLog sampleListener nonFactoryCreatedLog =
      (sampleListener, ProcessOutcome.skippedNonFactory) :=
  processLog_nonfactory_spec sampleListener nonFactoryCreatedLog (by decide)

/-- C9: `CalculateFilterEfficiency` is the pure function
`(1 - retained/total) * 100` of the counters, is `0` when `total = 0`, and
returns `90` on `total = 1000`, `retained = 100`. -/
theorem calculateFilterEfficiency_spec (stats : LogFilterStats) :
    (stats.totalLogsReceived = 0 → CalculateFilterEfficiency stats = 0) ∧
    (stats.totalLogsReceived ≠ 0 →
      CalculateFilterEfficiency stats =
        (1 - (stats.logsAfterFilter : ℚ) / (stats.totalLogsReceived : ℚ)) * 100) ∧
    CalculateFilterEfficiency
      { totalLogsReceived := 1000, logsAfterFilter := 100,
        blocksProcessed := 0, contractsWatched := 0, filterEnabled := true } = 90 := by
  refine ⟨fun h => by simp [CalculateFilterEfficiency, h],
    fun h => by simp [CalculateFilterEfficiency, h], ?_⟩
  norm_num [CalculateFilterEfficiency]

/-- Witness for C9: instantiating at the zero-total and the
`total = 1000, retained = 100` counters. -/
theorem calculateFilterEfficiency_spec_witness :
    CalculateFilterEfficiency
      { totalLogsReceived := 0, logsAfterFilter := 0,
        blocksProcessed := 0, contractsWatched := 0, filterEnabled := true } = 0 :=
  (calculateFilterEfficiency_spec
    { totalLogsReceived := 0, logsAfterFilter := 0,
      blocksProcessed := 0, contractsWatched := 0, filterEnabled := true }).1 rfl

/-- C8: `GetFilteredLogs` always issues a query over exactly the requested
block range; the allow-list is attached exactly when filtering is enabled
and the cached allow-list is non-empty; and when filtering is disabled or
the allow-list is empty the result is the client's answer to the
unconstrained query over the same range (not an empty result). -/
theorem getFilteredLogs_query_spec (d : DopamintRPCClient)
    (fromBlock toBlock : Int)
    (filterLogs : FilterQuery → Except (List Char) (List Log)) :
    (GetFilteredLogs d fromBlock toBlock filterLogs).1.fromBlock = fromBlock ∧
    (GetFilteredLogs d fromBlock toBlock filterLogs).1.toBlock = toBlock ∧
    ((GetFilteredLogs d fromBlock toBlock filterLogs).1.addresses =
      if d.filterEnabled = true ∧ d.addressFilter ≠ [] then some d.addressFilter else none) ∧
    (d.filterEnabled = false ∨ d.addressFilter = [] →
      GetFilteredLogs d fromBlock toBlock filterLogs =
        ({ fromBlock := fromBlock, toBlock := toBlock, addresses := none },
          filterLogs { fromBlock := fromBlock, toBlock := toBlock, addresses := none })) := by
  by_cases he : d.filterEnabled
  · by_cases hf : d.addressFilter = []
    · simp [GetFilteredLogs, he, hf]
    · have hcond : (!d.filterEnabled || d.addressFilter.length == 0) = false := by
        simp [he, List.length_eq_zero, hf]
      cases h : filterLogs
          { fromBlock := fromBlock, toBlock := toBlock,
            addresses := some d.addressFilter } with
      | error e =>
        refine ⟨?_, ?_, ?_, ?_⟩ <;> simp [GetFilteredLogs, hcond, h, he, hf]
      | ok logs =>
        refine ⟨?_, ?_, ?_, ?_⟩ <;> simp [GetFilteredLogs, hcond, h, he, hf]
  · simp [GetFilteredLogs, he]

/-- Witness for C8: with filtering enabled but the allow-list emptied, the
issued retrieval is unconstrained over the requested range and returns the
client's answer. -/
theorem getFilteredLogs_query_spec_witness :
    GetFilteredLogs { addressFilter := [], filterEnabled := true } 3 9
        (fun _ => Except.ok []) =
      ({ fromBlock := 3, toBlock := 9, addresses := none }, Except.ok []) :=
  (getFilteredLogs_query_spec { addressFilter := [], filterEnabled := true } 3 9
    (fun _ => Except.ok [])).2.2.2 (Or.inr rfl)

/-- C10: the standalone parser enforces no factory-emitter precondition.
For every log with at least three topics whose first topic is the discovery
signature, `ParseNFTContractCreatedEvent` succeeds — with the same result
whatever the emitting address — extracting the new contract address from
the second topic slot and the creator from the third (truncated to address
width); it is `ProcessLog` that restricts discovery to factory-emitted
logs, leaving the registry untouched on any other emitter. -/
theorem parseNFTContractCreatedEvent_spec (log : Log)
    (hlen : 3 ≤ log.topics.length)
    (hsig : log.topics.head? = some NFTContractCreatedSignature) :
    (∀ a, ParseNFTContractCreatedEvent { log with address := a } =
      ParseNFTContractCreatedEvent log) ∧
    ParseNFTContractCreatedEvent log =
      Except.ok { collectionID := none
                  contractAddress := bytesToAddressWord (log.topics.getD 1 0)
                  creator := bytesToAddressWord (log.topics.getD 2 0)
                  name := []
                  symbol := []
                  baseURI := []
                  blockNumber := log.blockNumber
                  txHash := log.txHash
                  logIndex := log.index } ∧
    (∀ el : EventListener, log.address ≠ el.factoryAddress →
      (ProcessLog el log).1 = el) := by
  have h3 : ¬ log.topics.length < 3 := by omega
  have h0 : log.topics.getD 0 0 = NFTContractCreatedSignature := by
    cases hl : log.topics with
    | nil => rw [hl] at hsig; simp at hsig
    | cons t ts =>
      rw [hl] at hsig
      simp only [List.head?_cons, Option.some.injEq] at hsig
      simp [hl, hsig]
  refine ⟨fun a => rfl, ?_, ?_⟩
  · unfold ParseNFTContractCreatedEvent
    rw [if_neg h3, if_neg (fun hne => hne h0)]
  · intro el h
    simp [ProcessLog, h]

/-- Witness for C10: the parser accepts the three-topic discovery log
emitted by the non-factory address `7`. -/
theorem parseNFTContractCreatedEvent_spec_witness :
    ParseNFTContractCreatedEvent nonFactoryCreatedLog =
      Except.ok { collectionID := none
                  contractAddress := 11
                  creator := 12
                  name := []
                  symbol := []
                  baseURI := []
                  blockNumber := 0
                  txHash := 0
                  logIndex := 0 } := by
  have h := (parseNFTContractCreatedEvent_spec nonFactoryCreatedLog
    (by decide) (by decide)).2.1
  rw [h]
  rfl

/-- C6: insertion is idempotent — `Add(a)` twice equals `Add(a)` once as a
state transformation (hence same membership results and same dynamic-member
count) — and `AddBatch [x, y, x]` with `x`, `y` fresh and distinct adds
exactly the two distinct new members and reports `newCount = 2`, while a
second `AddBatch` of the same batch changes nothing and reports
`newCount = 0`. -/
theorem addNFTContract_idempotent_spec (cf : ContractFilter) (a x y : Nat) :
    AddNFTContract (AddNFTContract cf a) a = AddNFTContract cf a ∧
    (x ∉ cf.nftContracts → y ∉ cf.nftContracts → x ≠ y →
      (AddNFTContracts cf [x, y, x]).1.nftContracts = cf.nftContracts ++ [x, y] ∧
      (AddNFTContracts cf [x, y, x]).2 = 2 ∧
      AddNFTContracts (AddNFTContracts cf [x, y, x]).1 [x, y, x] =
        ((AddNFTContracts cf [x, y, x]).1, 0)) := by
  constructor
  · by_cases h : a ∈ cf.nftContracts
    · simp [AddNFTContract, h]
    · simp [AddNFTContract, h, List.mem_append]
  · intro hx hy hxy
    have hyx : y ≠ x := fun h => hxy h.symm
    have hbatch : AddNFTContracts cf [x, y, x] =
        ({ cf with nftContracts := cf.nftContracts ++ [x, y] }, 2) := by
      simp [AddNFTContracts, hx, hy, hxy, hyx, List.mem_append]
    refine ⟨by rw [hbatch], by rw [hbatch], ?_⟩
    rw [hbatch]
    simp [AddNFTContracts, List.mem_append]

/-- Witness for C6: from the empty dynamic set, the batch `[10, 20, 10]`
adds the two members `10` and `20`, and re-running it adds none. -/
theorem addNFTContract_idempotent_spec_witness :
    (AddNFTContracts sampleFilter [10, 20, 10]).2 = 2 ∧
    AddNFTContracts (AddNFTContracts sampleFilter [10, 20, 10]).1 [10, 20, 10] =
      ((AddNFTContracts sampleFilter [10, 20, 10]).1, 0) :=
  ⟨((addNFTContract_idempotent_spec sampleFilter 3 10 20).2
      (by decide) (by decide) (by decide)).2.1,
    ((addNFTContract_idempotent_spec sampleFilter 3 10 20).2
      (by decide) (by decide) (by decide)).2.2⟩

/-- C2 counterexample: the factory-emitted log carrying only the signature
topic inserts nothing into the registry, yet `ProcessLogs` counts it as a
discovered event (returned count `1`), contradicting the claim that a
malformed log is not counted as a discovered event. -/
theorem processLogs_counts_malformed_log :
    (ProcessLogs sampleListener [malformedCreatedLog]).2 = 1 ∧
    (ProcessLogs sampleListener [malformedCreatedLog]).1 = sampleListener := by
  decide

/-- C2 as amended: a factory-emitted log whose first topic is the discovery
signature but which carries fewer than three topics inserts no address into
the registry and takes the malformed-event exit of `ProcessLog` (the
printed `Invalid NFTContractCreated event` error — it is not silently
dropped); however, `ProcessLogs` counts it in the returned discovered-event
tally (count `1` for the single-log batch) rather than excluding it. -/
theorem processLog_malformed_spec (el : EventListener) (log : Log)
    (haddr : log.address = el.factoryAddress)
    (hsig : log.topics.head? = some NFTContractCreatedSignature)
    (hlen : log.topics.length < 3) :
    ProcessLog el log = (el, ProcessOutcome.invalidNotEnoughTopics) ∧
    ProcessLogs el [log] = (el, 1) := by
  obtain ⟨t, ts, hl⟩ : ∃ t ts, log.topics = t :: ts := by
    cases hl : log.topics with
    | nil => rw [hl] at hsig; simp at hsig
    | cons t ts => exact ⟨t, ts, rfl⟩
  rw [hl] at hsig
  simp only [List.head?_cons, Option.some.injEq] at hsig
  have hlen' : ts.length < 2 := by
    rw [hl] at hlen
    simp at hlen
    omega
  have hproc : ProcessLog el log = (el, ProcessOutcome.invalidNotEnoughTopics) := by
    simp [ProcessLog, haddr, hl, hsig, hlen']
  refine ⟨hproc, ?_⟩
  simp [ProcessLogs, processLogsStep, hproc, hl, hsig]

/-- Witness for C2: the single-topic discovery log from the factory is
rejected as malformed and still counted. -/
theorem processLog_malformed_spec_witness :
    ProcessLog sampleListener malformedCreatedLog =
      (sampleListener, ProcessOutcome.invalidNotEnoughTopics) ∧
    ProcessLogs sampleListener [malformedCreatedLog] = (sampleListener, 1) :=
  processLog_malformed_spec sampleListener malformedCreatedLog
    (by decide) (by decide) (by decide)

/-- Accumulator lemma for the `ProcessLogs` count: folding the loop body
adds to the running count exactly the number of logs whose first topic is
the discovery signature. -/
theorem processLogsStep_foldl_count (logs : List Log) :
    ∀ p : EventListener × Nat,
      (logs.foldl processLogsStep p).2 =
        p.2 + logs.countP
          (fun log => log.topics.head? == some NFTContractCreatedSignature) := by
  induction logs with
  | nil => intro p; simp
  | cons log rest ih =>
    intro p
    have hcond : (0 < log.topics.length ∧
        log.topics.getD 0 0 = NFTContractCreatedSignature) ↔
        (log.topics.head? == some NFTContractCreatedSignature) = true := by
      cases hl : log.topics with
      | nil => simp [hl]
      | cons t ts => simp [hl]
    have hstep : (processLogsStep p log).2 =
        if 0 < log.topics.length ∧
            log.topics.getD 0 0 = NFTContractCreatedSignature
        then p.2 + 1 else p.2 := by
      simp only [processLogsStep]
      split <;> rfl
    rw [List.foldl_cons, ih, hstep, List.countP_cons]
    by_cases h : 0 < log.topics.length ∧
        log.topics.getD 0 0 = NFTContractCreatedSignature
    · have hb := hcond.mp h
      rw [if_pos h]
      simp only [hb, if_true]
      omega
    · have hb : (log.topics.head? == some NFTContractCreatedSignature) = false := by
        cases ht : log.topics.head? == some NFTContractCreatedSignature
        · rfl
        · exact absurd (hcond.mpr ht) h
      rw [if_neg h]
      simp only [hb, Bool.false_eq_true, if_false]
      omega

/-- C1 counterexample: a log from the non-factory emitter `7` whose first
topic is the discovery signature is counted by `ProcessLogs` (returned
count `1`) although it fails the applicability test and nothing is
discovered or inserted (the state is unchanged) — contradicting the claim
that only logs passing the full applicability test contribute to the
count. -/
theorem processLogs_counts_nonfactory_log :
    (ProcessLogs sampleListener [nonFactoryCreatedLog]).2 = 1 ∧
    (ProcessLogs sampleListener [nonFactoryCreatedLog]).1 = sampleListener := by
  decide

/-- A parsed configuration whose factory address field is missing from the
JSON document (the Go decoder leaves the string empty) and whose payment
address is the string `1`. -/
def configMissingFactory : ContractConfig :=
  { factoryAddress := []
    paymentAddress := ['1']
    nftContracts := []
    eventFiltersEnabled := true
    autoDiscoveryEnabled := false
    mongodbSyncEnabled := false
    mongodbSyncIntervalSeconds := 0 }

/-- C3 counterexample: a readable, well-formed configuration whose factory
address is missing does not abort construction — `NewContractFilter`
returns a filter with the zero address substituted for the factory role,
contradicting the claim that initialization fails on a missing fixed
address. -/
theorem newContractFilter_accepts_missing_factory :
    NewContractFilter (some (some configMissingFactory)) =
      Except.ok { factoryAddress := 0
                  paymentAddress := 1
                  nftContracts := []
                  enabled := true
                  autoDiscovery := false
                  mongodbSyncEnabled := false
                  mongodbSyncIntervalSeconds := 0 } := by
  rfl

/-- C3 as amended: `NewContractFilter` fails (returns an error and no
filter) exactly when the configuration source is unreadable or fails to
parse; a missing or malformed fixed-address field does not abort
construction — the filter is built with whatever `common.HexToAddress`
yields for the field, which is the zero address when the field is
missing (empty). -/
theorem newContractFilter_failure_spec :
    (∀ configSource : Option (Option ContractConfig),
      (NewContractFilter configSource).isOk = false ↔
        configSource = none ∨ configSource = some none) ∧
    (∀ config : ContractConfig,
      (NewContractFilter (some (some config))).toOption.map
          ContractFilter.factoryAddress =
        some (hexToAddress config.factoryAddress)) ∧
    hexToAddress [] = 0 := by
  refine ⟨?_, fun config => rfl, rfl⟩
  intro configSource
  match configSource with
  | none => simp [NewContractFilter, Except.isOk, Except.toBool]
  | some none => simp [NewContractFilter, Except.isOk, Except.toBool]
  | some (some config) => simp [NewContractFilter, Except.isOk, Except.toBool]

/-- Witness for C3: the unreadable configuration source aborts
construction. -/
theorem newContractFilter_failure_spec_witness :
    (NewContractFilter none).isOk = false :=
  (newContractFilter_failure_spec.1 none).mpr (Or.inl rfl)

/-- C5 counterexample: inserting the factory address (`5`) itself as a
dynamic member makes it appear twice in the watched-address snapshot and
twice in the canonicalized query list, contradicting the claim that after
every sequence of insertions every address appears at most once. -/
theorem getWatchedAddresses_duplicate_fixed_role :
    GetWatchedAddresses (AddNFTContract sampleFilter 5) = [5, 6, 5] ∧
    ¬ (GetWatchedAddresses (AddNFTContract sampleFilter 5)).Nodup ∧
    ¬ (GetAddressFilter (AddNFTContract sampleFilter 5)).Nodup := by
  refine ⟨by decide, by decide, by decide⟩

/-- C1 as amended: `ProcessLogs` returns the number of logs whose first
topic equals the discovery signature — regardless of the emitting address
and of the topic count, so the returned count can exceed the number of
addresses discovered and inserted; `BackfillNFTContracts` runs the same
pipeline over the batch but returns success (`nil` error), not the count. -/
theorem processLogs_count_eq_signature_count (el : EventListener)
    (logs : List Log) :
    (ProcessLogs el logs).2 =
      logs.countP (fun log => log.topics.head? == some NFTContractCreatedSignature) ∧
    BackfillNFTContracts el logs = ((ProcessLogs el logs).1, none) := by
  refine ⟨?_, rfl⟩
  have h := processLogsStep_foldl_count logs (el, 0)
  simpa [ProcessLogs] using h

/-- Lower-casing a character does not change its hex-digit value: uppercase
`A`–`F` lower to `a`–`f` with the same value, other uppercase letters stay
non-digits, and any other character is unchanged. -/
theorem hexDigitVal_asciiLower (c : Char) :
    hexDigitVal (asciiLower c) = hexDigitVal c := by
  unfold asciiLower
  split <;> rfl

/-- Lower-casing commutes with hex-pair decoding. -/
theorem decodeHexPairs_map_asciiLower :
    ∀ s : List Char, decodeHexPairs (s.map asciiLower) = decodeHexPairs s
  | [] => rfl
  | [c] => rfl
  | c1 :: c2 :: rest => by
    simp only [List.map_cons, decodeHexPairs]
    rw [hexDigitVal_asciiLower, hexDigitVal_asciiLower]
    cases h1 : hexDigitVal c1 <;> cases h2 : hexDigitVal c2 <;>
      simp [decodeHexPairs_map_asciiLower rest]

/-- Lower-casing preserves the `0x`/`0X` prefix test. -/
theorem startsWith0x_map_asciiLower (s : List Char) :
    startsWith0x (s.map asciiLower) = startsWith0x s := by
  match s with
  | [] => rfl
  | [c] => rfl
  | c0 :: c1 :: rest =>
    have e0 : (asciiLower c0 == '0') = (c0 == '0') := by
      unfold asciiLower
      split <;> rfl
    have e1 : ((asciiLower c1 == 'x') || (asciiLower c1 == 'X')) =
        ((c1 == 'x') || (c1 == 'X')) := by
      unfold asciiLower
      split <;> rfl
    simp only [List.map_cons, startsWith0x, e0, e1]

/-- Lower-casing commutes with `FromHex` (prefix test, odd-length padding
and pair decoding are all case-insensitive in the relevant positions). -/
theorem fromHex_map_asciiLower (s : List Char) :
    fromHex (s.map asciiLower) = fromHex s := by
  have pad : ∀ t : List Char,
      decodeHexPairs (if (t.map asciiLower).length % 2 = 1
          then '0' :: t.map asciiLower else t.map asciiLower) =
        decodeHexPairs (if t.length % 2 = 1 then '0' :: t else t) := by
    intro t
    rw [List.length_map]
    by_cases h : t.length % 2 = 1
    · have hc : ('0' :: t.map asciiLower) = ('0' :: t).map asciiLower := rfl
      simp only [h, if_true, hc, decodeHexPairs_map_asciiLower]
    · simp only [h, if_false, decodeHexPairs_map_asciiLower]
  simp only [fromHex, startsWith0x_map_asciiLower]
  by_cases h : startsWith0x s
  · simp only [h, if_true, ← List.map_drop]
    exact pad (s.drop 2)
  · simp only [h, if_false]
    exact pad s

/-- Lower-casing an address string does not change the parsed address. -/
theorem hexToAddress_map_asciiLower (s : List Char) :
    hexToAddress (s.map asciiLower) = hexToAddress s := by
  unfold hexToAddress
  rw [fromHex_map_asciiLower]

/-- The fixed-width hex rendering has the requested width. -/
theorem natToHexDigits_length (len : Nat) :
    ∀ n, (natToHexDigits n len).length = len := by
  induction len with
  | zero => intro n; rfl
  | succ k ih =>
    intro n
    simp [natToHexDigits, ih]

/-- Distinct hex digit values below 16 render as distinct characters. -/
theorem lowerHexDigit_inj :
    ∀ a < 16, ∀ b < 16, lowerHexDigit a = lowerHexDigit b → a = b := by
  decide

/-- The fixed-width hex rendering is injective below `16 ^ len`. -/
theorem natToHexDigits_inj (len : Nat) :
    ∀ n m, n < 16 ^ len → m < 16 ^ len →
      natToHexDigits n len = natToHexDigits m len → n = m := by
  induction len with
  | zero =>
    intro n m hn hm _
    simp only [pow_zero, Nat.lt_one_iff] at hn hm
    omega
  | succ k ih =>
    intro n m hn hm heq
    simp only [natToHexDigits] at heq
    have hlen : (natToHexDigits (n / 16) k).length =
        (natToHexDigits (m / 16) k).length := by
      rw [natToHexDigits_length, natToHexDigits_length]
    obtain ⟨h1, h2⟩ := List.append_inj heq hlen
    have hd : n % 16 = m % 16 := by
      have h2' : lowerHexDigit (n % 16) = lowerHexDigit (m % 16) := by
        simpa using h2
      exact lowerHexDigit_inj (n % 16) (Nat.mod_lt n (by norm_num))
        (m % 16) (Nat.mod_lt m (by norm_num)) h2'
    have hq : n / 16 = m / 16 := by
      refine ih (n / 16) (m / 16) ?_ ?_ h1
      · rw [Nat.div_lt_iff_lt_mul (by norm_num : (0:ℕ) < 16)]
        calc n < 16 ^ (k + 1) := hn
          _ = 16 ^ k * 16 := by rw [pow_succ]
      · rw [Nat.div_lt_iff_lt_mul (by norm_num : (0:ℕ) < 16)]
        calc m < 16 ^ (k + 1) := hm
          _ = 16 ^ k * 16 := by rw [pow_succ]
    omega

/-- The canonical lowercase rendering is injective on address-width
values. -/
theorem toLowerHexAddr_inj (a b : Nat) (ha : a < 2 ^ 160) (hb : b < 2 ^ 160)
    (h : toLowerHexAddr a = toLowerHexAddr b) : a = b := by
  have h16 : (16 : ℕ) ^ 40 = 2 ^ 160 := by norm_num
  refine natToHexDigits_inj 40 a b (h16 ▸ ha) (h16 ▸ hb) ?_
  simpa [toLowerHexAddr] using h

/-- C5 as amended: `Add`/`AddBatch` never duplicate a dynamic member (the
dynamic-member list stays duplicate-free), and the watched-address snapshot
and the canonicalized query list are duplicate-free provided the two fixed
roles are distinct and no dynamic member equals a fixed role — but not in
general: a dynamic member equal to the factory or payment address appears
twice (see the counterexample).  Case differences in hexadecimal input
never create two entries for the same address: parsing is case-insensitive
and the query list renders each address in canonical lowercase. -/
theorem registry_snapshot_nodup_spec :
    (∀ (cf : ContractFilter) (a : Nat), cf.nftContracts.Nodup →
      (AddNFTContract cf a).nftContracts.Nodup) ∧
    (∀ (cf : ContractFilter) (addrs : List Nat), cf.nftContracts.Nodup →
      (AddNFTContracts cf addrs).1.nftContracts.Nodup) ∧
    (∀ cf : ContractFilter, cf.nftContracts.Nodup →
      cf.factoryAddress ≠ cf.paymentAddress →
      cf.factoryAddress ∉ cf.nftContracts →
      cf.paymentAddress ∉ cf.nftContracts →
      (GetWatchedAddresses cf).Nodup ∧
      ((∀ a ∈ GetWatchedAddresses cf, a < 2 ^ 160) →
        (GetAddressFilter cf).Nodup)) ∧
    (∀ s : List Char, hexToAddress (s.map asciiLower) = hexToAddress s) := by
  have hadd : ∀ (cf : ContractFilter) (a : Nat), cf.nftContracts.Nodup →
      (AddNFTContract cf a).nftContracts.Nodup := by
    intro cf a hnd
    by_cases h : a ∈ cf.nftContracts
    · simpa [AddNFTContract, h] using hnd
    · simp [AddNFTContract, h, List.nodup_append, hnd]
  refine ⟨hadd, ?_, ?_, hexToAddress_map_asciiLower⟩
  · intro cf addrs
    suffices hgen : ∀ (addrs : List Nat) (p : ContractFilter × Nat),
        p.1.nftContracts.Nodup →
        (addrs.foldl
          (fun acc addr =>
            if addr ∈ acc.1.nftContracts then acc
            else ({ acc.1 with nftContracts := acc.1.nftContracts ++ [addr] },
              acc.2 + 1)) p).1.nftContracts.Nodup by
      intro hnd
      exact hgen addrs (cf, 0) hnd
    intro addrs
    induction addrs with
    | nil => intro p hp; simpa using hp
    | cons a rest ih =>
      intro p hp
      rw [List.foldl_cons]
      by_cases h : a ∈ p.1.nftContracts
      · exact ih _ (by simpa [h] using hp)
      · refine ih _ ?_
        simp [h, List.nodup_append, hp]
  · intro cf hnd hfp hf hp
    have hwatch : (GetWatchedAddresses cf).Nodup := by
      simp [GetWatchedAddresses, List.nodup_cons, hfp, hf, hp, hnd]
    refine ⟨hwatch, fun hbound => ?_⟩
    refine List.Nodup.map_on ?_ hwatch
    intro x hx y hy hxy
    exact toLowerHexAddr_inj x y (hbound x hx) (hbound y hy) hxy

/-- Witness for C5: the seeded registry's snapshot is duplicate-free, its
query list is duplicate-free, and the mixed-case strings `0xAb` and `0xaB`
parse to the same address. -/
theorem registry_snapshot_nodup_spec_witness :
    (GetWatchedAddresses sampleFilter).Nodup ∧
    (GetAddressFilter sampleFilter).Nodup ∧
    hexToAddress ['0', 'x', 'A', 'b'] = hexToAddress ['0', 'x', 'a', 'B'] := by
  have h := registry_snapshot_nodup_spec.2.2.1 sampleFilter
    (by decide) (by decide) (by decide) (by decide)
  refine ⟨h.1, h.2 (by decide), ?_⟩
  have h1 := registry_snapshot_nodup_spec.2.2.2 ['0', 'x', 'A', 'b']
  have h2 := registry_snapshot_nodup_spec.2.2.2 ['0', 'x', 'a', 'B']
  exact h1.symm.trans h2

end DopamintIndexer
